import Mathlib

/-!
Verification development for the `processor` package and the TUI parameter
form of the cloudcompare-automation repository.

The Go code is shallowly embedded: lines of worker output are lists of
characters, the classifier of `Processor.readOutput` is a pure function per
line, the tallies and the final result synthesis of `Processor.run` are pure
functions of the tallied counts and exit status, the bounded log channel and
the single-slot result channel are explicit queue/slot transition functions,
and `Processor.Start` / `Processor.buildArgs` / `Model.startProcessing`
become functions on explicit state / parameter records.  Go `float64`
parameter fields are modelled as rationals (the defaults 1.5 and 2.0 and all
comparisons in the code are exact there; NaN/Inf inputs are outside the
model).  Go `int` is modelled as `Int` (no tallied counter ever overflows).
-/

namespace CCAuto

/-- Whitespace as Go's `strings.TrimSpace` (`unicode.IsSpace`) sees it in the
Latin-1 range: `\t \n \v \f \r` space, NEL and NBSP.  (Worker output lines
never contain the exotic higher Unicode space code points.) -/
def isGoSpace (c : Char) : Bool :=
  c = ' ' || c = '\t' || c = '\n' || c = '\x0b' || c = '\x0c' || c = '\r' ||
  c = '\u0085' || c = ' '

/-- The `\s` character class of Go's RE2 regexp (ASCII): `[\t\n\f\r ]`. -/
def isRegexSpace (c : Char) : Bool :=
  c = '\t' || c = '\n' || c = '\x0c' || c = '\r' || c = ' '

/-- The `\w` character class of Go's RE2 regexp (ASCII): `[0-9A-Za-z_]`. -/
def isWordChar (c : Char) : Bool :=
  ('0' ≤ c && c ≤ '9') || ('A' ≤ c && c ≤ 'Z') || ('a' ≤ c && c ≤ 'z') || c = '_'

/-- ASCII upper-casing, as `strings.ToUpper` acts on the ASCII-only `\w`
characters a matched tag consists of. -/
def asciiUpper (c : Char) : Char :=
  if 'a' ≤ c && c ≤ 'z' then Char.ofNat (c.toNat - 32) else c

/-- `strings.TrimSpace`: strip leading and trailing whitespace. -/
def trimSpace (l : List Char) : List Char :=
  ((l.dropWhile isGoSpace).reverse.dropWhile isGoSpace).reverse

/-- `strings.Contains hay needle`: `needle` occurs as a contiguous substring. -/
def containsSub (hay needle : List Char) : Bool :=
  hay.tails.any (fun t => needle.isPrefixOf t)

/-- The match of Go regexp `^\[(\w+)\]\s*(.*)$` against a (newline-free)
line, returning the two submatches `(tag, message)`.  Since `\w` cannot match
`]`, the greedy `\w+` is deterministic: the line matches exactly when it
starts with `[`, followed by a non-empty run of word characters, followed by
`]`; `\s*` then greedily eats whitespace and `(.*)$` takes the rest. -/
def parseTag (line : List Char) : Option (List Char × List Char) :=
  match line with
  | '[' :: rest =>
    let tag := rest.takeWhile isWordChar
    if tag.isEmpty then none
    else
      match rest.dropWhile isWordChar with
      | ']' :: rest2 => some (tag, rest2.dropWhile isRegexSpace)
      | _ => none
  | _ => none

/-- What `Processor.readOutput` does with one raw line: the log entry it
sends (if any) as a `(level, message)` pair, and the increments it applies to
the success and failure tallies. -/
structure Classified where
  emit : Option (List Char × List Char)
  dSucc : Nat
  dFail : Nat
  deriving DecidableEq, Repr

/-- The four recognized severities of the `switch` in `readOutput`. -/
def knownLevels : List (List Char) :=
  ["SUCCESS".data, "ERROR".data, "WARNING".data, "INFO".data]

/-- The per-line body of the scan loop of `Processor.readOutput`, applied to
the already-trimmed line: skip empty lines and lines starting with `===` or
`---`; otherwise match the level regex, tally `Successfully processed:` /
`Failed to` / `failed` against the upper-cased tag, and emit the entry
(unknown tags fall back to INFO with the regex remainder as message; lines
with no tag are emitted whole as INFO). -/
def classifyTrimmed (line : List Char) : Classified :=
  if line.isEmpty then ⟨none, 0, 0⟩
  else if "===".data.isPrefixOf line || "---".data.isPrefixOf line then ⟨none, 0, 0⟩
  else
    match parseTag line with
    | some (tag, msg) =>
      let level := tag.map asciiUpper
      let dS := if level = "SUCCESS".data ∧ containsSub msg "Successfully processed:".data then 1 else 0
      let dF := if level = "ERROR".data ∧
          (containsSub msg "Failed to".data ∨ containsSub msg "failed".data) then 1 else 0
      if level ∈ knownLevels then ⟨some (level, msg), dS, dF⟩
      else ⟨some ("INFO".data, msg), dS, dF⟩
    | none => ⟨some ("INFO".data, line), 0, 0⟩

/-- One iteration of `Processor.readOutput` on the raw scanned line:
`line := strings.TrimSpace(scanner.Text())`, then classify. -/
def processLine (raw : List Char) : Classified :=
  classifyTrimmed (trimSpace raw)

/-- Modelled from the spec: "lines that are purely visual separators (runs of
`=` or `-`)" — a non-empty line consisting solely of `=` or solely of `-`.
Used only to compare the spec's discard condition with the code's
prefix-based one. -/
def specSeparator (l : List Char) : Bool :=
  !l.isEmpty && (l.all (fun c => c = '=') || l.all (fun c => c = '-'))

/-- The success/failure tallies `readOutput` accumulates over a run's output
lines (both pipes merged into one list; the tallies commute, so the
interleaving is irrelevant to the totals). -/
def tally (lines : List (List Char)) : Nat × Nat :=
  lines.foldl (fun acc l => (acc.1 + (processLine l).dSucc, acc.2 + (processLine l).dFail)) (0, 0)

/-- Go struct `ProcessingResult`. -/
structure ProcessingResult where
  totalFiles : Nat
  successCount : Nat
  failedCount : Nat
  outputDir : String := ""
  completed : Bool
  deriving DecidableEq, Repr

/-- The result synthesis at the end of `Processor.run` (lines 402–423):
start from the tallies, infer one success on a clean exit with no tallies,
and synthesize one failure on a non-zero exit with no tallied failures
(bumping `TotalFiles` to 1 only when it was 0). -/
def computeResult (exitOk : Bool) (s f : Nat) : ProcessingResult :=
  let r : ProcessingResult :=
    { totalFiles := s + f, successCount := s, failedCount := f, outputDir := "", completed := true }
  let r := if exitOk ∧ s = 0 ∧ f = 0 then { r with successCount := 1, totalFiles := 1 } else r
  if ¬exitOk ∧ f = 0 then
    { r with failedCount := 1, totalFiles := if r.totalFiles = 0 then 1 else r.totalFiles }
  else r

/-- The `ProcessingResult` a completed run publishes, as a function of the
run's output lines and whether `cmd.Wait()` returned nil. -/
def runResult (lines : List (List Char)) (exitOk : Bool) : ProcessingResult :=
  computeResult exitOk (tally lines).1 (tally lines).2

/-- Go struct `LogEntry`: a severity tag and a message. -/
structure LogEntry where
  level : List Char
  message : List Char
  deriving DecidableEq, Repr

/-- The capacity of the log channel created by `processor.New`:
`make(chan LogEntry, 500)`. -/
def logChanCap : Nat := 500

/-- `Processor.sendLog`, with the buffered channel made explicit as the list
of queued entries (oldest first).  The outer `select` pushes when there is
room; on a full channel the inner non-blocking receive drops the oldest
pending entry (a no-op if the channel emptied), then the final non-blocking
send pushes the new entry if room appeared.  Single-producer-step semantics:
each call is one atomic queue transition. -/
def sendLog (cap : Nat) (q : List LogEntry) (e : LogEntry) : List LogEntry :=
  if q.length < cap then q ++ [e]
  else
    let q2 := q.tail
    if q2.length < cap then q2 ++ [e] else q2

/-- `Processor.sendResult`, with the single-slot result channel
(`make(chan ProcessingResult, 1)`) made explicit as an `Option`: a
non-blocking send that drops the NEW result when the slot is already
occupied, keeping the old unread one. -/
def sendResult (slot : Option ProcessingResult) (r : ProcessingResult) :
    Option ProcessingResult :=
  match slot with
  | none => some r
  | some old => some old

/-- The mutex-guarded state of a `Processor` that `Start` reads and writes:
the `running` flag, whether `scriptPath` has been resolved (non-empty), and
the two tallies. -/
structure ProcState where
  running : Bool
  scriptFound : Bool
  successCount : Nat
  failedCount : Nat
  deriving DecidableEq, Repr

/-- What one call to `Processor.Start` returns and does: whether it returned
an error, the processor state when it returned, and whether the `run`
goroutine was spawned.  `findOk` abstracts whether `FindScripts` would
succeed when invoked. -/
structure StartResult where
  retErr : Bool
  state : ProcState
  spawned : Bool
  deriving DecidableEq, Repr

/-- `Processor.Start` (lines 273–297): reject if already running; otherwise
set `running := true` and reset the tallies; resolve scripts if unresolved,
un-setting `running` and returning the error on failure; else spawn `run`
and return nil. -/
def startStep (s : ProcState) (findOk : Bool) : StartResult :=
  if s.running then ⟨true, s, false⟩
  else
    let s1 : ProcState := { s with running := true, successCount := 0, failedCount := 0 }
    if s1.scriptFound then ⟨false, s1, true⟩
    else if findOk then ⟨false, { s1 with scriptFound := true }, true⟩
    else ⟨true, { s1 with running := false }, false⟩

/-- The result `run` publishes when it aborts before/at process start:
`ProcessingResult{Completed: true, FailedCount: 1}` (other fields Go zero
values). -/
def abortResult : ProcessingResult :=
  { totalFiles := 0, successCount := 0, failedCount := 1, outputDir := "", completed := true }

/-- How one execution of the spawned `run` goroutine can go: a stdout or
stderr pipe fails to open, the child process fails to start, or the child
runs to completion producing output lines and an exit status. -/
inductive RunEnv
  | stdoutPipeFail
  | stderrPipeFail
  | startFail
  | completes (lines : List (List Char)) (exitOk : Bool)

/-- What one execution of `Processor.run` publishes (the arguments of its
`sendResult` calls, in order) and the final `running` flag (always reset to
false by the deferred handler). -/
structure RunOutcome where
  results : List ProcessingResult
  finalRunning : Bool
  deriving DecidableEq, Repr

/-- `Processor.run` (lines 310–426), abstracted over the environment: every
path — including the failure to start the child process — publishes exactly
one `ProcessingResult` and ends with `running = false`. -/
def runStep : RunEnv → RunOutcome
  | .stdoutPipeFail => ⟨[abortResult], false⟩
  | .stderrPipeFail => ⟨[abortResult], false⟩
  | .startFail => ⟨[abortResult], false⟩
  | .completes lines exitOk => ⟨[runResult lines exitOk], false⟩

/-- Go struct `Params` (the spec's ParameterSet); `float64` fields as `ℚ`. -/
structure Params where
  inputDir : String
  outputSubdir : String
  knn : Int
  octreeDepth : Int
  samplesPerNode : ℚ
  pointWeight : ℚ
  boundaryType : Int
  deriving DecidableEq, Repr

/-- `processor.DefaultParams`. -/
def DefaultParams : Params :=
  { inputDir := ".", outputSubdir := "Processed", knn := 6, octreeDepth := 11,
    samplesPerNode := 1.5, pointWeight := 2.0, boundaryType := 2 }

/-- Go's `fmt.Sprintf("%.1f", x)` on the rational model: round to one
decimal and print (only ever applied to positive non-default parameter
values; binary64 tie-breaking detail is immaterial there). -/
def formatF1 (q : ℚ) : String :=
  let n : Int := round (q * 10)
  let a := n.natAbs
  (if n < 0 then "-" else "") ++ toString (a / 10) ++ "." ++ toString (a % 10)

/-- `Processor.buildArgs` (lines 428–465): the absolute input directory as
the fixed first positional argument, then one flag–value pair per field
whose value both differs from its default and passes the field's sanity
bound. -/
def buildArgs (absInputDir : String) (p : Params) : List String :=
  let args : List String := [absInputDir]
  let args := args ++
    (if p.outputSubdir ≠ "" ∧ p.outputSubdir ≠ "Processed" then
      ["--output-dir", p.outputSubdir] else [])
  let args := args ++
    (if p.knn ≠ 6 ∧ 0 < p.knn then ["--knn", toString p.knn] else [])
  let args := args ++
    (if p.octreeDepth ≠ 11 ∧ 0 < p.octreeDepth then
      ["--octree-depth", toString p.octreeDepth] else [])
  let args := args ++
    (if p.samplesPerNode ≠ 1.5 ∧ 0 < p.samplesPerNode then
      ["--samples-per-node", formatF1 p.samplesPerNode] else [])
  let args := args ++
    (if p.pointWeight ≠ 2.0 ∧ 0 < p.pointWeight then
      ["--point-weight", formatF1 p.pointWeight] else [])
  let args := args ++
    (if p.boundaryType ≠ 2 ∧ 0 ≤ p.boundaryType ∧ p.boundaryType ≤ 2 then
      ["--boundary-type", toString p.boundaryType] else [])
  args

/-- Value of a run of decimal digits. -/
def digitsToNat (ds : List Char) : Nat :=
  ds.foldl (fun a c => a * 10 + (c.toNat - 48)) 0

/-- Leading digit run of a character list, with the rest; fails when there is
no leading digit. -/
def readDigits (cs : List Char) : Option (Nat × List Char) :=
  let ds := cs.takeWhile Char.isDigit
  if ds.isEmpty then none
  else some (digitsToNat ds, cs.dropWhile Char.isDigit)

/-- `fmt.Sscanf(s, "%d", &x)` as used by `Model.startProcessing`: skip
leading whitespace, optional sign, then a digit run; `none` when scanning
fails (Go then leaves the variable at its pre-set default).  Trailing
garbage after the number is ignored, as `Sscanf` ignores it with no further
verbs.  (int64 overflow of absurdly long inputs is not modelled.) -/
def sscanfInt (s : String) : Option Int :=
  let cs := s.data.dropWhile isGoSpace
  match cs with
  | '-' :: rest => (readDigits rest).map (fun x => -(x.1 : Int))
  | '+' :: rest => (readDigits rest).map (fun x => (x.1 : Int))
  | _ => (readDigits cs).map (fun x => (x.1 : Int))

/-- The mantissa part of Go's float scan token: `digits [. digits]`,
`digits .`, or `. digits`; returns its value and the rest. -/
def readMantissa (cs : List Char) : Option (ℚ × List Char) :=
  let ip := cs.takeWhile Char.isDigit
  let rest := cs.dropWhile Char.isDigit
  match rest with
  | '.' :: rest2 =>
    let fp := rest2.takeWhile Char.isDigit
    if ip.isEmpty ∧ fp.isEmpty then none
    else some ((digitsToNat ip : ℚ) + (digitsToNat fp : ℚ) / (10 : ℚ) ^ fp.length,
      rest2.dropWhile Char.isDigit)
  | _ => if ip.isEmpty then none else some ((digitsToNat ip : ℚ), rest)

/-- The exponent part after `e`/`E`: optional sign then digits. -/
def readExp (cs : List Char) : Option Int :=
  match cs with
  | '-' :: rest => (readDigits rest).map (fun x => -(x.1 : Int))
  | '+' :: rest => (readDigits rest).map (fun x => (x.1 : Int))
  | _ => (readDigits cs).map (fun x => (x.1 : Int))

/-- `fmt.Sscanf(s, "%f", &x)` on the rational model: skip leading
whitespace, optional sign, decimal mantissa, optional `e`/`E` exponent;
`none` when scanning fails.  (`NaN`/`Inf` tokens, accepted by Go's scanner,
lie outside the rational model; form fields are ordinary decimals.) -/
def sscanfFloat (s : String) : Option ℚ :=
  let cs := s.data.dropWhile isGoSpace
  let signed : Bool × List Char :=
    match cs with
    | '-' :: rest => (true, rest)
    | '+' :: rest => (false, rest)
    | _ => (false, cs)
  match readMantissa signed.2 with
  | none => none
  | some (m, rest) =>
    let m := if signed.1 then -m else m
    match rest with
    | 'e' :: rest2 => (readExp rest2).map (fun ex => m * (10 : ℚ) ^ ex)
    | 'E' :: rest2 => (readExp rest2).map (fun ex => m * (10 : ℚ) ^ ex)
    | _ => some m

/-- The raw textual values of the parameter form fields (plus the directory
selected in the browser, used when the input-directory field is empty). -/
structure FormInputs where
  inputDir : String
  outputSubdir : String
  knn : String
  octreeDepth : String
  samplesPerNode : String
  pointWeight : String
  boundaryType : String
  deriving DecidableEq, Repr

/-- The parameter-parsing prefix of `Model.startProcessing`
(internal/tui/model.go lines 646–687): each field is pre-set to its default,
scanned, and clamped back to the default when non-positive (numeric fields)
or out of range 0–2 (boundary type); empty text fields fall back to the
selected directory / `"Processed"`. -/
def parseParams (selectedDir : String) (f : FormInputs) : Params :=
  let inputDir := if f.inputDir = "" then selectedDir else f.inputDir
  let outputSubdir := if f.outputSubdir = "" then "Processed" else f.outputSubdir
  let knn0 : Int := (sscanfInt f.knn).getD 6
  let knn := if knn0 ≤ 0 then 6 else knn0
  let od0 : Int := (sscanfInt f.octreeDepth).getD 11
  let od := if od0 ≤ 0 then 11 else od0
  let spn0 : ℚ := (sscanfFloat f.samplesPerNode).getD 1.5
  let spn := if spn0 ≤ 0 then 1.5 else spn0
  let pw0 : ℚ := (sscanfFloat f.pointWeight).getD 2.0
  let pw := if pw0 ≤ 0 then 2.0 else pw0
  let bt0 : Int := (sscanfInt f.boundaryType).getD 2
  let bt := if bt0 < 0 ∨ 2 < bt0 then 2 else bt0
  { inputDir := inputDir, outputSubdir := outputSubdir, knn := knn, octreeDepth := od,
    samplesPerNode := spn, pointWeight := pw, boundaryType := bt }

/-- C1 (counterexample): a completed run whose child exited non-zero after
two tallied successes and no tallied failures publishes
`{totalFiles 2, successCount 2, failedCount 1}` — the synthesized failure is
added to `failedCount` without enlarging `totalFiles`, so
`successCount + failedCount ≠ totalFiles` although `totalFiles > 0`. -/
theorem result_invariant_cex :
    0 < (runResult ["[SUCCESS] Successfully processed: a.las".data,
      "[SUCCESS] Successfully processed: b.las".data] false).totalFiles ∧
    (runResult ["[SUCCESS] Successfully processed: a.las".data,
      "[SUCCESS] Successfully processed: b.las".data] false).successCount +
    (runResult ["[SUCCESS] Successfully processed: a.las".data,
      "[SUCCESS] Successfully processed: b.las".data] false).failedCount ≠
    (runResult ["[SUCCESS] Successfully processed: a.las".data,
      "[SUCCESS] Successfully processed: b.las".data] false).totalFiles := by
  decide

/-- C1 (amended): for every published result with `totalFiles > 0`,
`successCount + failedCount = totalFiles`, EXCEPT when the exit code is
non-zero, no failure was tallied and at least one success was tallied; in
that case the synthesized failure makes
`successCount + failedCount = totalFiles + 1`. -/
theorem result_invariant_amended (exitOk : Bool) (s f : Nat)
    (h : 0 < (computeResult exitOk s f).totalFiles) :
    (computeResult exitOk s f).successCount + (computeResult exitOk s f).failedCount =
      (computeResult exitOk s f).totalFiles +
        (if exitOk = false ∧ f = 0 ∧ 0 < s then 1 else 0) := by
  clear h
  unfold computeResult
  cases exitOk <;> by_cases hf : f = 0 <;> by_cases hs : s = 0 <;>
    simp_all <;> (try split_ifs) <;> omega

/-- Witness for C1 (amended) at a clean exit with tallies 2/1. -/
theorem result_invariant_amended_witness :
    0 < (computeResult true 2 1).totalFiles ∧
    (computeResult true 2 1).successCount + (computeResult true 2 1).failedCount =
      (computeResult true 2 1).totalFiles +
        (if (true : Bool) = false ∧ (1 : Nat) = 0 ∧ 0 < (2 : Nat) then 1 else 0) :=
  ⟨by decide, result_invariant_amended true 2 1 (by decide)⟩

/-- C2 (counterexample): starting from an idle processor with scripts
already resolved, `Start` returns nil (no error) and marks the processor
Running BEFORE the child is ever spawned; when the child then fails to
start, the `run` goroutine still publishes one
`ProcessingResult{Completed: true, FailedCount: 1}`, which lands in the
empty result slot.  All three parts of the claim fail on the code. -/
theorem start_failure_cex :
    (startStep ⟨false, true, 0, 0⟩ true).retErr = false ∧
    (startStep ⟨false, true, 0, 0⟩ true).state.running = true ∧
    (runStep .startFail).results ≠ [] ∧
    sendResult none abortResult = some abortResult := by
  decide

/-- C2 (amended): when the scripts are already resolved, `Start` on an idle
processor returns nil, sets Running and spawns `run`; a child-spawn failure
inside `run` publishes exactly one `{completed, failedCount 1}` result and
resets Running.  `Start` itself returns an error without spawning — leaving
the processor not Running — only when script resolution fails (the case the
claim's error return actually covers). -/
theorem start_failure_amended (s : ProcState) (findOk : Bool)
    (hrun : s.running = false) :
    (s.scriptFound = true →
      (startStep s findOk).retErr = false ∧
      (startStep s findOk).state.running = true ∧
      (startStep s findOk).spawned = true) ∧
    runStep .startFail = ⟨[abortResult], false⟩ ∧
    (s.scriptFound = false → findOk = false →
      (startStep s findOk).retErr = true ∧
      (startStep s findOk).state.running = false ∧
      (startStep s findOk).spawned = false) := by
  cases s with
  | mk running scriptFound sc fc =>
    simp only at hrun
    subst hrun
    cases scriptFound <;> cases findOk <;> simp [startStep, runStep]

/-- Witness for C2 (amended) at an idle, scripts-resolved processor. -/
theorem start_failure_amended_witness :
    (⟨false, true, 0, 0⟩ : ProcState).running = false ∧
    (((⟨false, true, 0, 0⟩ : ProcState).scriptFound = true →
      (startStep ⟨false, true, 0, 0⟩ true).retErr = false ∧
      (startStep ⟨false, true, 0, 0⟩ true).state.running = true ∧
      (startStep ⟨false, true, 0, 0⟩ true).spawned = true) ∧
    runStep .startFail = ⟨[abortResult], false⟩ ∧
    ((⟨false, true, 0, 0⟩ : ProcState).scriptFound = false → true = false →
      (startStep ⟨false, true, 0, 0⟩ true).retErr = true ∧
      (startStep ⟨false, true, 0, 0⟩ true).state.running = false ∧
      (startStep ⟨false, true, 0, 0⟩ true).spawned = false)) :=
  ⟨rfl, start_failure_amended ⟨false, true, 0, 0⟩ true rfl⟩

/-- C6: a run whose child exits cleanly with neither successes nor failures
tallied from its output publishes the inferred-success fallback
`{totalFiles 1, successCount 1, failedCount 0}`. -/
theorem clean_exit_no_tally_result (lines : List (List Char))
    (hs : (tally lines).1 = 0) (hf : (tally lines).2 = 0) :
    runResult lines true =
      { totalFiles := 1, successCount := 1, failedCount := 0,
        outputDir := "", completed := true } := by
  unfold runResult
  rw [hs, hf]
  decide

/-- Witness for C6 on one untagged output line. -/
theorem clean_exit_no_tally_result_witness :
    ((tally ["loading cloud".data]).1 = 0 ∧ (tally ["loading cloud".data]).2 = 0) ∧
    runResult ["loading cloud".data] true =
      { totalFiles := 1, successCount := 1, failedCount := 0,
        outputDir := "", completed := true } :=
  ⟨⟨by decide, by decide⟩,
    clean_exit_no_tally_result ["loading cloud".data] (by decide) (by decide)⟩

/-- C9: one `sendLog` step on the capacity-500 log channel never blocks (it
is a total queue transition), never grows the queue beyond its capacity,
appends directly when there is room, and on a full queue drops exactly the
oldest pending entry to make room, after which the new entry is present. -/
theorem sendLog_bounded (q : List LogEntry) (e : LogEntry)
    (hq : q.length ≤ logChanCap) :
    (sendLog logChanCap q e).length ≤ logChanCap ∧
    e ∈ sendLog logChanCap q e ∧
    (q.length < logChanCap → sendLog logChanCap q e = q ++ [e]) ∧
    (q.length = logChanCap → sendLog logChanCap q e = q.tail ++ [e]) := by
  have hcap : 0 < logChanCap := by decide
  unfold sendLog
  by_cases h : q.length < logChanCap
  · rw [if_pos h]
    refine ⟨?_, ?_, fun _ => rfl, fun hEq => absurd hEq (by omega)⟩
    · rw [List.length_append]
      simpa using h
    · simp
  · have hEq : q.length = logChanCap := le_antisymm hq (not_lt.mp h)
    have htail : q.tail.length = q.length - 1 := List.length_tail q
    have h2 : q.tail.length < logChanCap := by omega
    rw [if_neg h, if_pos h2]
    refine ⟨?_, ?_, fun hlt => absurd hlt h, fun _ => rfl⟩
    · simp only [List.length_append, List.length_singleton]
      omega
    · simp

/-- Witness for C9 on the empty queue. -/
theorem sendLog_bounded_witness :
    ([] : List LogEntry).length ≤ logChanCap ∧
    ((sendLog logChanCap [] ⟨"INFO".data, "x".data⟩).length ≤ logChanCap ∧
     (⟨"INFO".data, "x".data⟩ : LogEntry) ∈ sendLog logChanCap [] ⟨"INFO".data, "x".data⟩ ∧
     (([] : List LogEntry).length < logChanCap →
       sendLog logChanCap [] ⟨"INFO".data, "x".data⟩ = [] ++ [⟨"INFO".data, "x".data⟩]) ∧
     (([] : List LogEntry).length = logChanCap →
       sendLog logChanCap [] ⟨"INFO".data, "x".data⟩ =
         ([] : List LogEntry).tail ++ [⟨"INFO".data, "x".data⟩])) :=
  ⟨by decide, sendLog_bounded [] ⟨"INFO".data, "x".data⟩ (by decide)⟩

/-- C10: publishing on the single-slot result channel never blocks (total
transition); an empty slot receives the result, and a slot holding an unread
earlier result keeps it — the newly published result is the one discarded. -/
theorem sendResult_keeps_old (old r : ProcessingResult) :
    sendResult (some old) r = some old ∧ sendResult none r = some r :=
  ⟨rfl, rfl⟩

/-- C3 (counterexample): the line `[DEBUG] hello` has an unrecognized tag;
the classifier emits severity Info, but its message is the remainder after
the bracket (`hello`), not the full line as the claim states. -/
theorem unknown_tag_cex :
    (processLine "[DEBUG] hello".data).emit = some ("INFO".data, "hello".data) ∧
    "hello".data ≠ "[DEBUG] hello".data := by
  decide

/-- C3 (amended): for a surviving line (non-blank, not `===`/`---`-prefixed
after trimming), an unrecognized leading bracketed tag yields an Info entry
whose message is the REMAINDER after the bracket (whitespace-stripped), while
a line with no leading bracketed tag at all yields an Info entry whose
message is the full (trimmed) line. -/
theorem unknown_tag_amended (raw : List Char) (h1 : trimSpace raw ≠ [])
    (h2 : "===".data.isPrefixOf (trimSpace raw) = false)
    (h3 : "---".data.isPrefixOf (trimSpace raw) = false) :
    (parseTag (trimSpace raw) = none →
      (processLine raw).emit = some ("INFO".data, trimSpace raw)) ∧
    (∀ tag msg, parseTag (trimSpace raw) = some (tag, msg) →
      tag.map asciiUpper ∉ knownLevels →
      (processLine raw).emit = some ("INFO".data, msg)) := by
  unfold processLine classifyTrimmed
  revert h1 h2 h3
  generalize trimSpace raw = line
  intro h1 h2 h3
  rw [if_neg (by simpa [List.isEmpty_iff] using h1), if_neg (by simp [h2, h3])]
  cases hp : parseTag line with
  | none =>
    refine ⟨fun _ => rfl, fun tag msg hsome _ => ?_⟩
    exact absurd hsome (by simp)
  | some p =>
    obtain ⟨tag, msg⟩ := p
    refine ⟨fun hnone => absurd hnone (by simp), fun tag' msg' hsome hNot => ?_⟩
    simp only [Option.some_inj, Prod.mk.injEq] at hsome
    obtain ⟨rfl, rfl⟩ := hsome
    simp [hNot]

/-- Witness for C3 (amended) on the unrecognized-tag line `[DEBUG] hi`. -/
theorem unknown_tag_amended_witness :
    (trimSpace "[DEBUG] hi".data ≠ [] ∧
     "===".data.isPrefixOf (trimSpace "[DEBUG] hi".data) = false ∧
     "---".data.isPrefixOf (trimSpace "[DEBUG] hi".data) = false) ∧
    ((parseTag (trimSpace "[DEBUG] hi".data) = none →
      (processLine "[DEBUG] hi".data).emit = some ("INFO".data, trimSpace "[DEBUG] hi".data)) ∧
    (∀ tag msg, parseTag (trimSpace "[DEBUG] hi".data) = some (tag, msg) →
      tag.map asciiUpper ∉ knownLevels →
      (processLine "[DEBUG] hi".data).emit = some ("INFO".data, msg))) :=
  ⟨⟨by decide, by decide, by decide⟩,
    unknown_tag_amended "[DEBUG] hi".data (by decide) (by decide) (by decide)⟩

/-- C4 (counterexample): the code filters by PREFIX `===`/`---`, not by
"purely a run of `=` or `-`": the non-separator line
`=== Processing complete ===` is discarded (no LogEntry), while the pure
separator `==` survives and produces a LogEntry. -/
theorem line_filter_cex :
    (trimSpace "=== Processing complete ===".data ≠ [] ∧
     specSeparator (trimSpace "=== Processing complete ===".data) = false ∧
     (processLine "=== Processing complete ===".data).emit = none) ∧
    (specSeparator (trimSpace "==".data) = true ∧
     (processLine "==".data).emit ≠ none) := by
  decide

/-- C4 (amended): a raw line produces no LogEntry exactly when it is blank
after trimming or its trimmed form STARTS WITH `===` or `---`; every other
line produces exactly one LogEntry (the `emit` field of the classifier's
output, a single entry when present). -/
theorem line_filter_amended (raw : List Char) :
    (processLine raw).emit = none ↔
      (trimSpace raw = [] ∨ "===".data.isPrefixOf (trimSpace raw) = true ∨
       "---".data.isPrefixOf (trimSpace raw) = true) := by
  unfold processLine classifyTrimmed
  generalize trimSpace raw = line
  by_cases h1 : line.isEmpty
  · rw [if_pos h1]
    exact ⟨fun _ => Or.inl (List.isEmpty_iff.mp h1), fun _ => rfl⟩
  · rw [if_neg h1]
    have h1' : ¬(line = []) := fun h => h1 (List.isEmpty_iff.mpr h)
    by_cases h2 : ("===".data.isPrefixOf line || "---".data.isPrefixOf line) = true
    · rw [if_pos h2]
      simp only [Bool.or_eq_true] at h2
      exact ⟨fun _ => Or.inr h2, fun _ => rfl⟩
    · rw [if_neg h2]
      simp only [Bool.or_eq_true, not_or, Bool.not_eq_true] at h2
      have hRhs : ¬(line = [] ∨ "===".data.isPrefixOf line = true ∨
          "---".data.isPrefixOf line = true) := by
        rintro (h | h | h)
        · exact h1' h
        · rw [h2.1] at h
          exact Bool.false_ne_true h
        · rw [h2.2] at h
          exact Bool.false_ne_true h
      cases hp : parseTag line with
      | none =>
        refine ⟨fun hemit => absurd hemit (by simp), fun hr => absurd hr hRhs⟩
      | some p =>
        obtain ⟨tag, msg⟩ := p
        refine ⟨fun hemit => ?_, fun hr => absurd hr hRhs⟩
        by_cases hK : tag.map asciiUpper ∈ knownLevels
        · simp [hK] at hemit
        · simp [hK] at hemit

/-- Witness for C4 (amended) on a plain text line. -/
theorem line_filter_amended_witness :
    (processLine "plain line".data).emit = none ↔
      (trimSpace "plain line".data = [] ∨
       "===".data.isPrefixOf (trimSpace "plain line".data) = true ∨
       "---".data.isPrefixOf (trimSpace "plain line".data) = true) :=
  line_filter_amended "plain line".data

/-- C5: a classified line increments the success tally exactly when its
emitted severity is SUCCESS and its message contains
`Successfully processed:`, and the failure tally exactly when its emitted
severity is ERROR and its message contains `Failed to` or `failed`; each
increment is by one, and no other line changes either tally. -/
theorem tally_increments (raw : List Char) :
    ((processLine raw).dSucc = 0 ∨ (processLine raw).dSucc = 1) ∧
    ((processLine raw).dSucc = 1 ↔ ∃ msg,
      (processLine raw).emit = some ("SUCCESS".data, msg) ∧
      containsSub msg "Successfully processed:".data = true) ∧
    ((processLine raw).dFail = 0 ∨ (processLine raw).dFail = 1) ∧
    ((processLine raw).dFail = 1 ↔ ∃ msg,
      (processLine raw).emit = some ("ERROR".data, msg) ∧
      (containsSub msg "Failed to".data = true ∨
       containsSub msg "failed".data = true)) := by
  unfold processLine classifyTrimmed
  generalize trimSpace raw = line
  by_cases h1 : line.isEmpty
  · simp [h1]
  · rw [if_neg (by simpa using h1)]
    by_cases h2 : ("===".data.isPrefixOf line || "---".data.isPrefixOf line) = true
    · simp [h2]
    · rw [if_neg (by simpa using h2)]
      cases hp : parseTag line with
      | none => simp
      | some p =>
        obtain ⟨tag, msg⟩ := p
        simp only
        by_cases hK : tag.map asciiUpper ∈ knownLevels
        · rw [if_pos hK]
          by_cases hS : tag.map asciiUpper = "SUCCESS".data ∧
              containsSub msg "Successfully processed:".data <;>
            by_cases hF : tag.map asciiUpper = "ERROR".data ∧
              (containsSub msg "Failed to".data ∨ containsSub msg "failed".data) <;>
            simp_all <;> tauto
        · rw [if_neg hK]
          have hS : ¬(tag.map asciiUpper = "SUCCESS".data) := fun h => hK (h ▸ by decide)
          have hE : ¬(tag.map asciiUpper = "ERROR".data) := fun h => hK (h ▸ by decide)
          have hI : ¬(("INFO".data : List Char) = "SUCCESS".data) := by decide
          have hI2 : ¬(("INFO".data : List Char) = "ERROR".data) := by decide
          simp [hS, hE, hI, hI2]

/-- Witness for C5 on a tallying success line. -/
theorem tally_increments_witness :
    ((processLine "[SUCCESS] Successfully processed: a.las".data).dSucc = 0 ∨
     (processLine "[SUCCESS] Successfully processed: a.las".data).dSucc = 1) ∧
    ((processLine "[SUCCESS] Successfully processed: a.las".data).dSucc = 1 ↔ ∃ msg,
      (processLine "[SUCCESS] Successfully processed: a.las".data).emit =
        some ("SUCCESS".data, msg) ∧
      containsSub msg "Successfully processed:".data = true) ∧
    ((processLine "[SUCCESS] Successfully processed: a.las".data).dFail = 0 ∨
     (processLine "[SUCCESS] Successfully processed: a.las".data).dFail = 1) ∧
    ((processLine "[SUCCESS] Successfully processed: a.las".data).dFail = 1 ↔ ∃ msg,
      (processLine "[SUCCESS] Successfully processed: a.las".data).emit =
        some ("ERROR".data, msg) ∧
      (containsSub msg "Failed to".data = true ∨
       containsSub msg "failed".data = true)) :=
  tally_increments "[SUCCESS] Successfully processed: a.las".data

/-- C7: for every ParameterSet satisfying the spec's field invariant (text
subdirectory non-empty, numeric fields strictly positive, boundary code in
0–2 — exactly what the form parser guarantees), the argument vector is the
resolved absolute input directory as the fixed first positional argument
followed by one flag–value pair per field that differs from its documented
default, and no flag for a field equal to its default. -/
theorem buildArgs_flags (d : String) (p : Params)
    (hOut : p.outputSubdir ≠ "") (hK : 0 < p.knn) (hO : 0 < p.octreeDepth)
    (hS : 0 < p.samplesPerNode) (hW : 0 < p.pointWeight)
    (hB0 : 0 ≤ p.boundaryType) (hB2 : p.boundaryType ≤ 2) :
    buildArgs d p =
      [d] ++ (if p.outputSubdir = "Processed" then [] else ["--output-dir", p.outputSubdir])
          ++ (if p.knn = 6 then [] else ["--knn", toString p.knn])
          ++ (if p.octreeDepth = 11 then [] else ["--octree-depth", toString p.octreeDepth])
          ++ (if p.samplesPerNode = 1.5 then []
              else ["--samples-per-node", formatF1 p.samplesPerNode])
          ++ (if p.pointWeight = 2.0 then [] else ["--point-weight", formatF1 p.pointWeight])
          ++ (if p.boundaryType = 2 then [] else ["--boundary-type", toString p.boundaryType]) := by
  unfold buildArgs
  have e1 : (if p.outputSubdir ≠ "" ∧ p.outputSubdir ≠ "Processed" then
        (["--output-dir", p.outputSubdir] : List String) else []) =
      (if p.outputSubdir = "Processed" then [] else ["--output-dir", p.outputSubdir]) := by
    by_cases h : p.outputSubdir = "Processed" <;> simp [h, hOut]
  have e2 : (if p.knn ≠ 6 ∧ 0 < p.knn then (["--knn", toString p.knn] : List String) else []) =
      (if p.knn = 6 then [] else ["--knn", toString p.knn]) := by
    by_cases h : p.knn = 6 <;> simp [h, hK]
  have e3 : (if p.octreeDepth ≠ 11 ∧ 0 < p.octreeDepth then
        (["--octree-depth", toString p.octreeDepth] : List String) else []) =
      (if p.octreeDepth = 11 then [] else ["--octree-depth", toString p.octreeDepth]) := by
    by_cases h : p.octreeDepth = 11 <;> simp [h, hO]
  have e4 : (if p.samplesPerNode ≠ 1.5 ∧ 0 < p.samplesPerNode then
        (["--samples-per-node", formatF1 p.samplesPerNode] : List String) else []) =
      (if p.samplesPerNode = 1.5 then []
       else ["--samples-per-node", formatF1 p.samplesPerNode]) := by
    by_cases h : p.samplesPerNode = 1.5 <;> simp [h, hS]
  have e5 : (if p.pointWeight ≠ 2.0 ∧ 0 < p.pointWeight then
        (["--point-weight", formatF1 p.pointWeight] : List String) else []) =
      (if p.pointWeight = 2.0 then [] else ["--point-weight", formatF1 p.pointWeight]) := by
    by_cases h : p.pointWeight = 2.0 <;> simp [h, hW]
  have e6 : (if p.boundaryType ≠ 2 ∧ 0 ≤ p.boundaryType ∧ p.boundaryType ≤ 2 then
        (["--boundary-type", toString p.boundaryType] : List String) else []) =
      (if p.boundaryType = 2 then [] else ["--boundary-type", toString p.boundaryType]) := by
    by_cases h : p.boundaryType = 2 <;> simp [h, hB0, hB2]
  rw [e1, e2, e3, e4, e5, e6]

/-- Witness for C7: only KNN differs from its default, so exactly one flag
pair follows the positional input directory. -/
theorem buildArgs_flags_witness :
    buildArgs "/abs/dir" { DefaultParams with knn := 9 } = ["/abs/dir", "--knn", "9"] := by
  have h := buildArgs_flags "/abs/dir" { DefaultParams with knn := 9 }
    (by decide) (by decide) (by decide) (by norm_num [DefaultParams])
    (by norm_num [DefaultParams]) (by decide) (by decide)
  rw [h]
  norm_num [DefaultParams]
  decide

/-- C8: parsing the form fields never rejects: every input yields a
ParameterSet whose numeric fields are strictly positive and whose boundary
code is one of 0/1/2; an empty output-subdirectory falls back to
`"Processed"`, an empty input directory falls back to the browser-selected
directory, unparsable (invalid/empty) numeric fields keep their documented
defaults (KNN 6, octree depth 11, samples-per-node 1.5, point weight 2.0,
boundary Neumann = 2), parsed non-positive numeric values are replaced by
those defaults, and an out-of-range boundary code is replaced by 2. -/
theorem parseParams_defaults (selectedDir : String) (f : FormInputs) :
    (0 < (parseParams selectedDir f).knn ∧
     0 < (parseParams selectedDir f).octreeDepth ∧
     0 < (parseParams selectedDir f).samplesPerNode ∧
     0 < (parseParams selectedDir f).pointWeight ∧
     ((parseParams selectedDir f).boundaryType = 0 ∨
      (parseParams selectedDir f).boundaryType = 1 ∨
      (parseParams selectedDir f).boundaryType = 2)) ∧
    (f.inputDir = "" → (parseParams selectedDir f).inputDir = selectedDir) ∧
    (f.outputSubdir = "" → (parseParams selectedDir f).outputSubdir = "Processed") ∧
    (sscanfInt f.knn = none → (parseParams selectedDir f).knn = 6) ∧
    (∀ v, sscanfInt f.knn = some v → v ≤ 0 → (parseParams selectedDir f).knn = 6) ∧
    (sscanfInt f.octreeDepth = none → (parseParams selectedDir f).octreeDepth = 11) ∧
    (∀ v, sscanfInt f.octreeDepth = some v → v ≤ 0 →
      (parseParams selectedDir f).octreeDepth = 11) ∧
    (sscanfFloat f.samplesPerNode = none →
      (parseParams selectedDir f).samplesPerNode = 1.5) ∧
    (∀ v, sscanfFloat f.samplesPerNode = some v → v ≤ 0 →
      (parseParams selectedDir f).samplesPerNode = 1.5) ∧
    (sscanfFloat f.pointWeight = none → (parseParams selectedDir f).pointWeight = 2.0) ∧
    (∀ v, sscanfFloat f.pointWeight = some v → v ≤ 0 →
      (parseParams selectedDir f).pointWeight = 2.0) ∧
    (sscanfInt f.boundaryType = none → (parseParams selectedDir f).boundaryType = 2) ∧
    (∀ v, sscanfInt f.boundaryType = some v → (v < 0 ∨ 2 < v) →
      (parseParams selectedDir f).boundaryType = 2) := by
  unfold parseParams
  refine ⟨⟨?_, ?_, ?_, ?_, ?_⟩, fun h => by simp [h], fun h => by simp [h],
    fun h => by simp [h], fun v h hv => by simp [h, hv],
    fun h => by simp [h], fun v h hv => by simp [h, hv],
    fun h => by simp [h], fun v h hv => by simp [h, hv],
    fun h => by simp [h], fun v h hv => by simp [h, hv],
    fun h => by simp [h], fun v h hv => by simp [h, if_pos hv]⟩
  · simp only
    split_ifs with h
    · decide
    · omega
  · simp only
    split_ifs with h
    · decide
    · omega
  · simp only
    split_ifs with h
    · norm_num
    · exact lt_of_not_le h
  · simp only
    split_ifs with h
    · norm_num
    · exact lt_of_not_le h
  · simp only
    split_ifs with h
    · right; right; rfl
    · omega

/-- Witness for C8 on a form with empty text fields, an unparsable KNN and
samples-per-node, a zero octree depth, an empty point weight and an
out-of-range boundary code. -/
theorem parseParams_defaults_witness :
    (parseParams "/sel" ⟨"", "", "abc", "0", "x", "", "7"⟩).knn = 6 ∧
    (parseParams "/sel" ⟨"", "", "abc", "0", "x", "", "7"⟩).octreeDepth = 11 ∧
    (parseParams "/sel" ⟨"", "", "abc", "0", "x", "", "7"⟩).samplesPerNode = 1.5 ∧
    (parseParams "/sel" ⟨"", "", "abc", "0", "x", "", "7"⟩).pointWeight = 2.0 ∧
    (parseParams "/sel" ⟨"", "", "abc", "0", "x", "", "7"⟩).boundaryType = 2 ∧
    (parseParams "/sel" ⟨"", "", "abc", "0", "x", "", "7"⟩).outputSubdir = "Processed" ∧
    (parseParams "/sel" ⟨"", "", "abc", "0", "x", "", "7"⟩).inputDir = "/sel" := by
  have h := parseParams_defaults "/sel" ⟨"", "", "abc", "0", "x", "", "7"⟩
  refine ⟨h.2.2.2.1 (by decide),
    h.2.2.2.2.2.2.1 0 (by decide) (by decide),
    h.2.2.2.2.2.2.2.1 (by decide),
    h.2.2.2.2.2.2.2.2.2.1 (by decide),
    h.2.2.2.2.2.2.2.2.2.2.2.2 7 (by decide) (by decide),
    h.2.2.1 rfl, h.2.1 rfl⟩

end CCAuto
